/- Verification of the snapshot-ingestion and signal-derivation engine of the
   bitcoin-dashboard repository (src/app.py).  The Python functions are
   shallowly embedded: machine floats become ℚ, ISO timestamps become integer
   seconds (a timestamp that is missing or fails parsing is `none`), network
   requests become explicit `Option` parameters holding the parsed response of
   each provider attempt, and Streamlit rendering becomes pure projections. -/
import Mathlib

/-- The `suggestion` strings produced by `calculate_network_signal`
    ("BUY" / "SELL" / "SIDEWAYS" / "INSUFFICIENT_DATA"). -/
inductive Suggestion
  | BUY
  | SELL
  | SIDEWAYS
  | INSUFFICIENT_DATA
  deriving DecidableEq

/-- The `bias` strings produced by `calculate_tor_trend`
    ("BEARISH (Sell Bias)" / "BULLISH (Buy Bias)" / "NEUTRAL" /
    "INSUFFICIENT_DATA"). -/
inductive TorBias
  | BEARISH
  | BULLISH
  | NEUTRAL
  | INSUFFICIENT_DATA
  deriving DecidableEq

/-- One entry of `self.historical_data` as built by `fetch_node_data`
    (src/app.py lines 270-277), which always writes every key.  `timestamp`
    is the parse of the stored ISO-8601 string, in seconds; `none` models a
    missing or unparseable timestamp field.  The value fields are total
    here; an arbitrary entry loaded from the JSON store may lack them and
    is modelled separately by `RawEntry` below. -/
structure Snapshot where
  timestamp : Option ℤ
  total_nodes : ℤ
  active_nodes : ℤ
  tor_nodes : ℤ
  tor_percentage : ℚ
  active_ratio : ℚ
  deriving DecidableEq

/-- Floor of a rational, computed on the numerator and denominator. -/
def ratFloor (q : ℚ) : ℤ := Int.fdiv q.num (q.den : ℤ)

/-- Python `round(x, d)`: round to `d` decimal places, ties to even
    (used on the returned `trend` / `signal` / percentage fields). -/
def pythonRound (d : ℕ) (x : ℚ) : ℚ :=
  let m : ℚ := (10 : ℚ) ^ d
  let y := x * m
  let f := ratFloor y
  let r := y - (f : ℚ)
  let n : ℤ :=
    if r < 1/2 then f
    else if 1/2 < r then f + 1
    else if f % 2 = 0 then f else f + 1
  (n : ℚ) / m

/-- src/app.py `get_btc_price` (lines 198-218): try Binance, then CoinGecko,
    then Coinbase.  Each argument is the parsed price from that provider
    attempt; `none` covers timeout, non-success status and parse failure
    (all caught by the bare `except`).  Returns `none` when all three fail. -/
def get_btc_price (binance coingecko coinbase : Option ℚ) : Option ℚ :=
  match binance with
  | some p => some p
  | none =>
    match coingecko with
    | some p => some p
    | none =>
      match coinbase with
      | some p => some p
      | none => none

/-- The characters of the substring `".onion"` tested by `fetch_node_data`. -/
def onionTag : List Char := ['.', 'o', 'n', 'i', 'o', 'n']

/-- Python `'.onion' in s`, on the character list of `s`. -/
def hasOnion (s : List Char) : Bool := decide (onionTag <:+: s)

/-- One entry of the Bitnodes `nodes` mapping: the address key and the
    per-node info array (a list of scalar fields, rendered as strings). -/
structure NodeEntry where
  address : List Char
  info : List (List Char)
  deriving DecidableEq

/-- The activity test of `fetch_node_data` line 260:
    `node_info and isinstance(node_info, list) and len(node_info) > 0`,
    with the info value modelled as a list. -/
def isActiveNode (e : NodeEntry) : Bool := decide (e.info ≠ [])

/-- The tor test of `fetch_node_data` line 264:
    `'.onion' in str(node_address) or '.onion' in str(node_info)`.
    `".onion"` contains no quote or comma, so it occurs in the string
    rendering of the info list exactly when it occurs in one element. -/
def isTorNode (e : NodeEntry) : Bool := hasOnion e.address || e.info.any hasOnion

/-- The parsed JSON body returned by the Bitnodes snapshot endpoint:
    the reported `total_nodes` field and the `nodes` mapping. -/
structure NodePayload where
  total_nodes : ℤ
  nodes : List NodeEntry
  deriving DecidableEq

/-- src/app.py `fetch_node_data` (lines 245-280), on an already-parsed
    payload: count active and tor nodes and derive the stored percentage
    and ratio fields.  `now` is `datetime.now()` in seconds. -/
def fetch_node_data (now : ℤ) (p : NodePayload) : Snapshot :=
  let active : ℤ := (p.nodes.countP isActiveNode : ℕ)
  let tor : ℤ := (p.nodes.countP isTorNode : ℕ)
  { timestamp := some now
    total_nodes := p.total_nodes
    active_nodes := active
    tor_nodes := tor
    tor_percentage :=
      if 0 < p.total_nodes then (tor : ℚ) / (p.total_nodes : ℚ) * 100 else 0
    active_ratio :=
      if 0 < p.total_nodes then (active : ℚ) / (p.total_nodes : ℚ) else 0 }

/-- `fetch_node_data` at the call boundary: `none` models the `except`
    branch (request failure), mirroring the Python `return None`. -/
def fetch_node_data_result (now : ℤ) (resp : Option NodePayload) : Option Snapshot :=
  resp.map (fetch_node_data now)

/-- The history-bounding step of `update_network_data` (lines 411-412):
    `if len(self.historical_data) > 1008: self.historical_data = self.historical_data[-1008:]`. -/
def trimTo1008 (l : List Snapshot) : List Snapshot :=
  if l.length > 1008 then l.drop (l.length - 1008) else l

/-- One append of `update_network_data`: `self.historical_data.append(current_data)`
    followed by the bounding step. -/
def append_snapshot (h : List Snapshot) (s : Snapshot) : List Snapshot :=
  trimTo1008 (h ++ [s])

/-- The analyzer state relevant to a refresh: the in-memory
    `self.historical_data` and the contents of the persisted JSON store. -/
structure Engine where
  history : List Snapshot
  persisted : List Snapshot
  deriving DecidableEq

/-- src/app.py `update_network_data` (lines 401-415).  `fetched` is the
    `fetch_node_data` outcome (`none` = fetch failure); `saveOk` models
    whether the `json.dump` write in `save_historical_data` succeeds — on
    failure the exception is caught (lines 242-243) and the persisted file
    keeps its old contents.  Returns the new state and the boolean result. -/
def update_network_data (e : Engine) (fetched : Option Snapshot) (saveOk : Bool) :
    Engine × Bool :=
  match fetched with
  | none => (e, false)
  | some s =>
    let h := append_snapshot e.history s
    ({ history := h, persisted := if saveOk then h else e.persisted }, true)

/-- One step of the closest-snapshot scan shared by
    `get_previous_total_nodes` and `get_previous_tor_percentage`
    (lines 295-304 / 321-330): entries whose timestamp fails to parse are
    skipped; otherwise the running `(closest_snapshot, min_time_diff)` pair
    is updated when the absolute difference is strictly smaller.  The
    initial accumulator `(none, none)` models `(None, float('inf'))`. -/
def scanStep (target : ℤ) (acc : Option Snapshot × Option ℤ) (s : Snapshot) :
    Option Snapshot × Option ℤ :=
  match s.timestamp with
  | none => acc
  | some t =>
    let d := |t - target|
    match acc.2 with
    | none => (some s, some d)
    | some m => if d < m then (some s, some d) else acc

/-- The closest-snapshot scan over a list of entries. -/
def scanClosest (target : ℤ) (l : List Snapshot) : Option Snapshot :=
  (l.foldl (scanStep target) (none, none)).1

/-- `timedelta(hours=24)` in seconds. -/
def hours24 : ℤ := 86400

/-- src/app.py `get_previous_total_nodes` (lines 282-306): `None` when the
    history has fewer than 2 entries; otherwise scan `historical_data[:-1]`
    for the snapshot closest to 24 hours before `now` and return its
    `total_nodes`, or `None` when no scanned entry parses. -/
def get_previous_total_nodes (now : ℤ) (h : List Snapshot) : Option ℤ :=
  if h.length < 2 then none
  else (scanClosest (now - hours24) h.dropLast).map Snapshot.total_nodes

/-- src/app.py `get_previous_tor_percentage` (lines 308-332): identical scan,
    returning the closest snapshot's `tor_percentage`. -/
def get_previous_tor_percentage (now : ℤ) (h : List Snapshot) : Option ℚ :=
  if h.length < 2 then none
  else (scanClosest (now - hours24) h.dropLast).map Snapshot.tor_percentage

/-- The record returned by `calculate_network_signal`, without the echoed
    node counts.  `previous_total = none` models the string
    `"No previous data"` placed in the insufficient-data branch. -/
structure NetSignalResult where
  previous_total : Option ℤ
  active_ratio : ℚ
  trend : ℚ
  signal : ℚ
  suggestion : Suggestion
  deriving DecidableEq

/-- src/app.py `calculate_network_signal` (lines 334-369): with no usable
    previous total (absent or zero) return zeros and INSUFFICIENT_DATA;
    otherwise `trend = (total - previous)/previous`,
    `signal = active_ratio * trend`, classified against ±0.01 before
    rounding, while the returned numeric fields are rounded to 4 places. -/
def calculate_network_signal (now : ℤ) (h : List Snapshot) (current : Snapshot) :
    NetSignalResult :=
  match get_previous_total_nodes now h with
  | none => ⟨none, current.active_ratio, 0, 0, .INSUFFICIENT_DATA⟩
  | some p =>
    if p = 0 then ⟨none, current.active_ratio, 0, 0, .INSUFFICIENT_DATA⟩
    else
      let ar := current.active_ratio
      let trend : ℚ := ((current.total_nodes : ℚ) - (p : ℚ)) / (p : ℚ)
      let signal := ar * trend
      let sug : Suggestion :=
        if signal > 1/100 then .BUY
        else if signal < -(1/100) then .SELL
        else .SIDEWAYS
      ⟨some p, pythonRound 4 ar, pythonRound 4 trend, pythonRound 4 signal, sug⟩

/-- The unrounded product `active_ratio * (total - previous)/previous`
    computed at src/app.py lines 349-351, before `round(signal, 4)`. -/
def rawSignal (ar : ℚ) (curTotal prevTotal : ℤ) : ℚ :=
  ar * (((curTotal : ℚ) - (prevTotal : ℚ)) / (prevTotal : ℚ))

/-- The record returned by `calculate_tor_trend`.  `previous_tor = none`
    models the string `"No data"` of the insufficient-data branch. -/
structure TorTrendResult where
  previous_tor : Option ℚ
  current_tor : ℚ
  tor_trend : ℚ
  bias : TorBias
  deriving DecidableEq

/-- src/app.py `calculate_tor_trend` (lines 371-399): with no usable
    previous percentage (absent or zero) return zeros and
    INSUFFICIENT_DATA; otherwise
    `tor_trend = (current - previous)/previous`, classified against
    ±0.001 before rounding; the returned trend is `round(trend*100, 2)`. -/
def calculate_tor_trend (now : ℤ) (h : List Snapshot) (current_tor_percentage : ℚ) :
    TorTrendResult :=
  match get_previous_tor_percentage now h with
  | none => ⟨none, current_tor_percentage, 0, .INSUFFICIENT_DATA⟩
  | some prev =>
    if prev = 0 then ⟨none, current_tor_percentage, 0, .INSUFFICIENT_DATA⟩
    else
      let tt := (current_tor_percentage - prev) / prev
      let bias : TorBias :=
        if tt > 1/1000 then .BEARISH
        else if tt < -(1/1000) then .BULLISH
        else .NEUTRAL
      ⟨some (pythonRound 2 prev), pythonRound 2 current_tor_percentage,
        pythonRound 2 (tt * 100), bias⟩

/-- The three CSS card styles `signal-buy` / `signal-sell` / `signal-neutral`
    used by `main` to render the bias card and the signal card. -/
inductive CardStyle
  | buy
  | sell
  | neutral
  deriving DecidableEq

/-- The market-bias card of `main` (lines 564-575): BEARISH renders the sell
    style, BULLISH the buy style, anything else neutral. -/
def biasCard (b : TorBias) : CardStyle :=
  match b with
  | .BEARISH => .sell
  | .BULLISH => .buy
  | _ => .neutral

/-- The network-signal card of `main` (lines 605-616): the rendered master
    signal is computed from `signal_data['suggestion']` alone. -/
def signalCard (s : Suggestion) : CardStyle :=
  match s with
  | .BUY => .buy
  | .SELL => .sell
  | _ => .neutral

/-- The pair of classification cards rendered by one pass of `main`
    (lines 536-620): the tor-bias card and the network-signal card. -/
def renderCards (torData : TorTrendResult) (signalData : NetSignalResult) :
    CardStyle × CardStyle :=
  (biasCard torData.bias, signalCard signalData.suggestion)

/-- Modelled from the spec (§4.4 SignalCombiner), for comparison with the
    code: a BUY or SELL network classification wins outright; on SIDEWAYS
    fall back to the tor bias (BULLISH → BUY, BEARISH → SELL,
    NEUTRAL → SIDEWAYS).  `main` (src/app.py lines 581-620) contains no such
    combiner. -/
def combine_spec (network : Suggestion) (tor : TorBias) : Suggestion :=
  match network with
  | .BUY => .BUY
  | .SELL => .SELL
  | _ =>
    match tor with
    | .BULLISH => .BUY
    | .BEARISH => .SELL
    | _ => .SIDEWAYS

/-- A concrete snapshot used to instantiate witnesses. -/
def sampleSnapshot : Snapshot :=
  { timestamp := some 0
    total_nodes := 100
    active_nodes := 90
    tor_nodes := 10
    tor_percentage := 10
    active_ratio := 9/10 }

/-- C1 (amended): the master classification rendered by `main` is computed
    from the network suggestion alone — BUY renders the buy card, SELL the
    sell card, and SIDEWAYS the neutral card — and changing the tor-trend
    result never changes it; there is no SIDEWAYS-to-tor-bias fallback. -/
theorem C1_master_signal_from_network_only
    (t1 t2 : TorTrendResult) (sd : NetSignalResult) :
    (renderCards t1 sd).2 = (renderCards t2 sd).2 ∧
    (renderCards t1 { sd with suggestion := .BUY }).2 = .buy ∧
    (renderCards t1 { sd with suggestion := .SELL }).2 = .sell ∧
    (renderCards t1 { sd with suggestion := .SIDEWAYS }).2 = .neutral :=
  ⟨rfl, rfl, rfl, rfl⟩

/-- C1 counterexample: at network classification SIDEWAYS and tor bias
    BULLISH, the claimed combiner yields BUY (rendered as the buy card),
    but `main` renders the neutral card for the master signal. -/
theorem C1_cex :
    combine_spec .SIDEWAYS .BULLISH = .BUY ∧
    (renderCards ⟨none, 0, 0, .BULLISH⟩ ⟨none, 0, 0, 0, .SIDEWAYS⟩).2 =
      CardStyle.neutral ∧
    signalCard (combine_spec .SIDEWAYS .BULLISH) = CardStyle.buy ∧
    CardStyle.neutral ≠ CardStyle.buy :=
  ⟨rfl, rfl, rfl, by decide⟩

/-- C2 (amended): on a history with fewer than 2 entries, both trend
    functions return total records (never raising) whose numeric value is 0
    and whose classification is INSUFFICIENT_DATA (which `main` renders as
    the neutral card), not NEUTRAL / SIDEWAYS. -/
theorem C2_short_history_insufficient
    (now : ℤ) (h : List Snapshot) (cur : Snapshot) (pct : ℚ)
    (hlen : h.length < 2) :
    calculate_tor_trend now h pct = ⟨none, pct, 0, .INSUFFICIENT_DATA⟩ ∧
    calculate_network_signal now h cur =
      ⟨none, cur.active_ratio, 0, 0, .INSUFFICIENT_DATA⟩ := by
  have h1 : get_previous_tor_percentage now h = none := by
    simp [get_previous_tor_percentage, hlen]
  have h2 : get_previous_total_nodes now h = none := by
    simp [get_previous_total_nodes, hlen]
  constructor
  · simp [calculate_tor_trend, h1]
  · simp [calculate_network_signal, h2]

/-- C2 witness: the amended statement instantiated on the empty history. -/
theorem C2_short_history_insufficient_witness :
    calculate_tor_trend 0 [] 5 = ⟨none, 5, 0, .INSUFFICIENT_DATA⟩ ∧
    calculate_network_signal 0 [] sampleSnapshot =
      ⟨none, sampleSnapshot.active_ratio, 0, 0, .INSUFFICIENT_DATA⟩ :=
  C2_short_history_insufficient 0 [] sampleSnapshot 5 (by decide)

/-- C2 counterexample: on the empty history the returned value is 0 as
    claimed, but the classification is INSUFFICIENT_DATA, not NEUTRAL
    (tor trend) and not SIDEWAYS (network signal). -/
theorem C2_cex :
    (calculate_tor_trend 0 [] 10).tor_trend = 0 ∧
    (calculate_tor_trend 0 [] 10).bias = .INSUFFICIENT_DATA ∧
    (calculate_tor_trend 0 [] 10).bias ≠ .NEUTRAL ∧
    (calculate_network_signal 0 [] sampleSnapshot).signal = 0 ∧
    (calculate_network_signal 0 [] sampleSnapshot).suggestion =
      .INSUFFICIENT_DATA ∧
    (calculate_network_signal 0 [] sampleSnapshot).suggestion ≠ .SIDEWAYS := by
  refine ⟨rfl, rfl, by decide, rfl, rfl, by decide⟩

/-- C4: the price fetch tries Binance, then CoinGecko, then Coinbase; the
    first successfully parsed response determines the result and later
    providers cannot affect it; when the first fails and the second
    succeeds the caller gets the second provider's price; when all fail the
    call returns `none` rather than raising. -/
theorem C4_provider_fallback :
    (∀ (b : ℚ) (c c2 cb cb2 : Option ℚ),
      get_btc_price (some b) c cb = some b ∧
      get_btc_price (some b) c cb = get_btc_price (some b) c2 cb2) ∧
    (∀ (c : ℚ) (cb cb2 : Option ℚ),
      get_btc_price none (some c) cb = some c ∧
      get_btc_price none (some c) cb = get_btc_price none (some c) cb2) ∧
    (∀ cb : ℚ, get_btc_price none none (some cb) = some cb) ∧
    get_btc_price none none none = none :=
  ⟨fun _ _ _ _ _ => ⟨rfl, rfl⟩, fun _ _ _ => ⟨rfl, rfl⟩, fun _ => rfl, rfl⟩

/-- C5: when the node-data fetch fails, the refresh returns `false` without
    raising and leaves both the in-memory history and the persisted store
    untouched; and when the fetch succeeds but the persistence write fails,
    the failure is swallowed — the refresh still returns `true`, the history
    is updated, and the persisted store keeps its old contents. -/
theorem C5_refresh_failure_retains_state (e : Engine) (s : Snapshot) :
    (∀ saveOk, update_network_data e none saveOk = (e, false)) ∧
    (update_network_data e (some s) false).2 = true ∧
    (update_network_data e (some s) false).1.history =
      append_snapshot e.history s ∧
    (update_network_data e (some s) false).1.persisted = e.persisted :=
  ⟨fun _ => rfl, rfl, rfl, rfl⟩

/-- C6 (amended): there is no caching in `get_btc_price` or
    `fetch_node_data` — neither keeps any state between calls, and every
    call returns the value parsed from that call's own fresh responses. -/
theorem C6_no_cache (b : ℚ) (c cb : Option ℚ) (now : ℤ) (p : NodePayload) :
    get_btc_price (some b) c cb = some b ∧
    fetch_node_data_result now (some p) = some (fetch_node_data now p) ∧
    (fetch_node_data now p).total_nodes = p.total_nodes ∧
    (fetch_node_data now p).timestamp = some now :=
  ⟨rfl, rfl, rfl, rfl⟩

/-- C6 counterexample: two price calls made 10 seconds apart — well inside
    the claimed 60-second TTL — with different fresh provider responses
    return different values; a TTL cache would have returned the first
    value unchanged without consulting the provider again. -/
theorem C6_cex :
    get_btc_price (some 100) none none = some 100 ∧
    get_btc_price (some 200) none none = some 200 ∧
    (some (100 : ℚ) : Option ℚ) ≠ some 200 :=
  ⟨rfl, rfl, by decide⟩

theorem trimTo1008_length (l : List Snapshot) :
    (trimTo1008 l).length = min l.length 1008 := by
  by_cases h : l.length > 1008
  · simp only [trimTo1008, if_pos h, List.length_drop]
    omega
  · simp only [trimTo1008, if_neg h]
    omega

theorem trimTo1008_drop (L : List Snapshot) (m : ℕ) (hm : m + 1008 ≤ L.length) :
    trimTo1008 (L.drop m) = trimTo1008 L := by
  have hdl : (L.drop m).length = L.length - m := List.length_drop m L
  by_cases h : (L.drop m).length > 1008
  · have h2 : L.length > 1008 := by omega
    simp only [trimTo1008, hdl, List.drop_drop]
    rw [if_pos (show L.length - m > 1008 by omega), if_pos h2]
    have heq : m + (L.length - m - 1008) = L.length - 1008 := by omega
    rw [heq]
  · have hlen : L.length = m + 1008 := by omega
    rcases Nat.eq_zero_or_pos m with hm0 | hm0
    · subst hm0
      simp only [List.drop_zero]
    · have h2 : L.length > 1008 := by omega
      simp only [trimTo1008, if_neg h, if_pos h2]
      have heq : L.length - 1008 = m := by omega
      rw [heq]

theorem trimTo1008_append_right (l r : List Snapshot) :
    trimTo1008 (trimTo1008 l ++ r) = trimTo1008 (l ++ r) := by
  by_cases hl : l.length > 1008
  · have hTl : trimTo1008 l = l.drop (l.length - 1008) := by
      simp only [trimTo1008, if_pos hl]
    rw [hTl, ← List.drop_append_of_le_length (by omega : l.length - 1008 ≤ l.length)]
    refine trimTo1008_drop (l ++ r) (l.length - 1008) ?_
    simp only [List.length_append]
    omega
  · have hTl : trimTo1008 l = l := by simp only [trimTo1008, if_neg hl]
    rw [hTl]

theorem foldl_append_snapshot (new : List Snapshot) :
    ∀ h : List Snapshot, new ≠ [] →
      new.foldl append_snapshot h = trimTo1008 (h ++ new) := by
  induction new with
  | nil => exact fun h hne => absurd rfl hne
  | cons s rest ih =>
    intro h _
    rcases eq_or_ne rest [] with hr | hr
    · subst hr
      simp only [List.foldl_cons, List.foldl_nil]
      rfl
    · simp only [List.foldl_cons]
      rw [ih (append_snapshot h s) hr]
      simp only [append_snapshot]
      rw [trimTo1008_append_right]
      have hassoc : (h ++ [s]) ++ rest = h ++ s :: rest := by simp
      rw [hassoc]

theorem append_snapshot_shape (g : List Snapshot) (s : Snapshot) :
    append_snapshot g s = g.drop (g.length + 1 - 1008) ++ [s] := by
  simp only [append_snapshot, trimTo1008]
  by_cases h : (g ++ [s]).length > 1008
  · rw [if_pos h]
    have hlen : (g ++ [s]).length = g.length + 1 := by simp
    rw [hlen, List.drop_append_of_le_length (by simp at h; omega)]
  · rw [if_neg h]
    have h0 : g.length + 1 - 1008 = 0 := by simp at h; omega
    rw [h0, List.drop_zero]

/-- C3: starting from any history, a sequence of 1009 appends through
    `update_network_data`'s bounding step leaves exactly 1008 entries; each
    single append inserts the new snapshot at the tail and evicts only from
    the head; and after the 1009 appends the retained entries are exactly
    the 1008 most recently appended snapshots, in their original order. -/
theorem C3_capacity (h new : List Snapshot) (hlen : new.length = 1009) :
    (new.foldl append_snapshot h).length = 1008 ∧
    new.foldl append_snapshot h = new.drop 1 ∧
    ∀ (g : List Snapshot) (s : Snapshot),
      append_snapshot g s = g.drop (g.length + 1 - 1008) ++ [s] := by
  have hne : new ≠ [] := by
    intro hc
    rw [hc] at hlen
    simp at hlen
  have hfold := foldl_append_snapshot new h hne
  have hgt : (h ++ new).length > 1008 := by
    simp only [List.length_append, hlen]
    omega
  refine ⟨?_, ?_, append_snapshot_shape⟩
  · rw [hfold, trimTo1008_length]
    simp only [List.length_append, hlen]
    omega
  · have h1 : trimTo1008 (h ++ new) = (h ++ new).drop ((h ++ new).length - 1008) := by
      simp only [trimTo1008, if_pos hgt]
    have h2 : (h ++ new).length - 1008 = h.length + 1 := by
      simp only [List.length_append, hlen]
      omega
    rw [hfold, h1, h2, List.drop_append]

/-- A history of 1009 identical snapshots, used to instantiate C3. -/
def manySnapshots : List Snapshot := List.replicate 1009 sampleSnapshot

/-- C3 witness: the capacity bound instantiated on 1009 concrete appends
    starting from the empty history. -/
theorem C3_capacity_witness :
    (manySnapshots.foldl append_snapshot []).length = 1008 ∧
    manySnapshots.foldl append_snapshot [] = manySnapshots.drop 1 ∧
    append_snapshot [] sampleSnapshot =
      ([] : List Snapshot).drop (([] : List Snapshot).length + 1 - 1008) ++
        [sampleSnapshot] := by
  obtain ⟨h1, h2, h3⟩ := C3_capacity [] manySnapshots
    (by simp only [manySnapshots, List.length_replicate])
  exact ⟨h1, h2, h3 [] sampleSnapshot⟩

/-- C7 (amended): before the final `round(signal, 4)`, the sign of the
    network-signal value `active_ratio * (current_total - previous_total) /
    previous_total` equals the sign of `current_total - previous_total`
    whenever `active_ratio > 0` and `previous_total > 0`; the rounded
    `signal` field returned by `calculate_network_signal` may flush a small
    nonzero value to 0 and lose the sign. -/
theorem C7_raw_signal_sign (ar : ℚ) (c p : ℤ) (har : 0 < ar) (hp : 0 < p) :
    (0 < rawSignal ar c p ↔ p < c) ∧
    (rawSignal ar c p < 0 ↔ c < p) ∧
    (rawSignal ar c p = 0 ↔ c = p) := by
  have hpQ : (0 : ℚ) < (p : ℚ) := by exact_mod_cast hp
  have hq : rawSignal ar c p = (ar / (p : ℚ)) * ((c : ℚ) - (p : ℚ)) := by
    unfold rawSignal
    ring
  have hpos : 0 < ar / (p : ℚ) := div_pos har hpQ
  have hne : ar / (p : ℚ) ≠ 0 := ne_of_gt hpos
  rw [hq]
  refine ⟨?_, ?_, ?_⟩
  · rw [mul_pos_iff_of_pos_left hpos, sub_pos]
    exact Int.cast_lt
  · constructor
    · intro hneg
      by_contra hcp
      push_neg at hcp
      have hge : (0 : ℚ) ≤ (c : ℚ) - (p : ℚ) := by
        rw [sub_nonneg]
        exact_mod_cast hcp
      nlinarith
    · intro hcp
      have hlt : (c : ℚ) - (p : ℚ) < 0 := by
        rw [sub_neg]
        exact_mod_cast hcp
      exact mul_neg_of_pos_of_neg hpos hlt
  · rw [mul_eq_zero]
    constructor
    · rintro (hz | hz)
      · exact absurd hz hne
      · have : (c : ℚ) = (p : ℚ) := by linarith [sub_eq_zero.mp hz]
        exact_mod_cast this
    · intro hcp
      right
      rw [sub_eq_zero]
      exact_mod_cast congrArg (fun z : ℤ => (z : ℚ)) hcp

/-- C7 witness: the sign correspondence instantiated at
    `active_ratio = 1/2`, current total 3, previous total 2. -/
theorem C7_raw_signal_sign_witness : (0 : ℚ) < rawSignal (1/2) 3 2 :=
  ((C7_raw_signal_sign (1/2) 3 2 (by norm_num) (by norm_num)).1).mpr (by norm_num)

/-- Previous snapshot used by the C7 counterexample: total 10000 nodes,
    timestamped exactly 24 hours before the refresh. -/
def cexPrev : Snapshot := ⟨some 0, 10000, 9000, 100, 1, 9/10⟩

/-- Current snapshot used by the C7 counterexample: total grew to 10001
    (positive growth) but only 1 of 10001 nodes is active, so
    `active_ratio = 1/10001` is positive yet tiny. -/
def cexCur : Snapshot := ⟨some 86400, 10001, 1, 0, 0, 1/10001⟩

/-- C7 counterexample: with `active_ratio = 1/10001 > 0` and previous total
    `10000 > 0`, the total grew (`10001 - 10000 > 0`), yet the `signal`
    field returned by `calculate_network_signal` — rounded to 4 decimal
    places — is exactly 0: its sign does not match the sign of the growth. -/
theorem C7_cex :
    (calculate_network_signal 86400 [cexPrev, cexCur] cexCur).signal = 0 ∧
    0 < cexCur.active_ratio ∧
    get_previous_total_nodes 86400 [cexPrev, cexCur] = some 10000 ∧
    0 < cexCur.total_nodes - 10000 := by
  have hprev : get_previous_total_nodes 86400 [cexPrev, cexCur] = some 10000 := by
    norm_num [get_previous_total_nodes, scanClosest, scanStep, hours24, cexPrev, cexCur,
      List.dropLast]
  have hfd : Int.fdiv 1 10001 = 0 := rfl
  refine ⟨?_, by norm_num [cexCur], hprev, by norm_num [cexCur]⟩
  simp only [calculate_network_signal]
  rw [hprev]
  norm_num [cexCur, pythonRound, ratFloor, hfd]

/-- A well-formed Bitnodes payload: the reported `total_nodes` field equals
    the number of entries in the `nodes` mapping (which the Bitnodes
    snapshot endpoint guarantees). -/
def WellFormedPayload (p : NodePayload) : Prop :=
  p.total_nodes = (p.nodes.length : ℤ)

/-- C9: for every snapshot fetched from a well-formed payload, the counted
    tor and active nodes are non-negative and never exceed the reported
    total, the stored tor percentage lies in [0, 100], and the stored
    active ratio lies in [0, 1]. -/
theorem C9_fetched_ranges (now : ℤ) (p : NodePayload) (hw : WellFormedPayload p) :
    (fetch_node_data now p).tor_nodes ≤ (fetch_node_data now p).total_nodes ∧
    (fetch_node_data now p).active_nodes ≤ (fetch_node_data now p).total_nodes ∧
    0 ≤ (fetch_node_data now p).tor_nodes ∧
    0 ≤ (fetch_node_data now p).active_nodes ∧
    0 ≤ (fetch_node_data now p).tor_percentage ∧
    (fetch_node_data now p).tor_percentage ≤ 100 ∧
    0 ≤ (fetch_node_data now p).active_ratio ∧
    (fetch_node_data now p).active_ratio ≤ 1 := by
  unfold WellFormedPayload at hw
  have htor : p.nodes.countP isTorNode ≤ p.nodes.length := List.countP_le_length _
  have hact : p.nodes.countP isActiveNode ≤ p.nodes.length := List.countP_le_length _
  simp only [fetch_node_data]
  refine ⟨?_, ?_, ?_, ?_, ?_, ?_, ?_, ?_⟩
  · rw [hw]
    exact_mod_cast htor
  · rw [hw]
    exact_mod_cast hact
  · exact_mod_cast Int.natCast_nonneg _
  · exact_mod_cast Int.natCast_nonneg _
  · by_cases hpos : 0 < p.total_nodes
    · rw [if_pos hpos]
      have h2 : (0 : ℚ) < ((p.total_nodes : ℤ) : ℚ) := by exact_mod_cast hpos
      positivity
    · rw [if_neg hpos]
  · by_cases hpos : 0 < p.total_nodes
    · rw [if_pos hpos]
      have h2 : (0 : ℚ) < ((p.total_nodes : ℤ) : ℚ) := by exact_mod_cast hpos
      have h1 : (((p.nodes.countP isTorNode : ℕ) : ℤ) : ℚ) ≤ ((p.total_nodes : ℤ) : ℚ) := by
        rw [hw]
        exact_mod_cast htor
      have hdiv : (((p.nodes.countP isTorNode : ℕ) : ℤ) : ℚ) / ((p.total_nodes : ℤ) : ℚ) ≤ 1 :=
        (div_le_one h2).mpr h1
      nlinarith
    · rw [if_neg hpos]
      norm_num
  · by_cases hpos : 0 < p.total_nodes
    · rw [if_pos hpos]
      have h2 : (0 : ℚ) < ((p.total_nodes : ℤ) : ℚ) := by exact_mod_cast hpos
      positivity
    · rw [if_neg hpos]
  · by_cases hpos : 0 < p.total_nodes
    · rw [if_pos hpos]
      have h2 : (0 : ℚ) < ((p.total_nodes : ℤ) : ℚ) := by exact_mod_cast hpos
      have h1 : (((p.nodes.countP isActiveNode : ℕ) : ℤ) : ℚ) ≤ ((p.total_nodes : ℤ) : ℚ) := by
        rw [hw]
        exact_mod_cast hact
      exact (div_le_one h2).mpr h1
    · rw [if_neg hpos]
      norm_num

/-- A single-node payload (one active onion node) used to instantiate C9. -/
def samplePayload : NodePayload := ⟨1, [⟨onionTag, [['x']]⟩]⟩

/-- C9 witness: the range invariants instantiated on a concrete well-formed
    payload. -/
theorem C9_fetched_ranges_witness :
    WellFormedPayload samplePayload ∧
    ((fetch_node_data 0 samplePayload).tor_nodes ≤
        (fetch_node_data 0 samplePayload).total_nodes ∧
      (fetch_node_data 0 samplePayload).active_nodes ≤
        (fetch_node_data 0 samplePayload).total_nodes ∧
      0 ≤ (fetch_node_data 0 samplePayload).tor_nodes ∧
      0 ≤ (fetch_node_data 0 samplePayload).active_nodes ∧
      0 ≤ (fetch_node_data 0 samplePayload).tor_percentage ∧
      (fetch_node_data 0 samplePayload).tor_percentage ≤ 100 ∧
      0 ≤ (fetch_node_data 0 samplePayload).active_ratio ∧
      (fetch_node_data 0 samplePayload).active_ratio ≤ 1) :=
  ⟨by norm_num [WellFormedPayload, samplePayload],
    C9_fetched_ranges 0 samplePayload (by norm_num [WellFormedPayload, samplePayload])⟩

/-- Invariant of the closest-snapshot scan: after processing `seen`, the
    accumulator is either still `(None, inf)` with every seen entry
    unparseable, or holds a seen, parseable entry of minimum absolute
    time difference among the parseable seen entries. -/
def GoodAcc (target : ℤ) (seen : List Snapshot) (acc : Option Snapshot × Option ℤ) : Prop :=
  (acc = (none, none) ∧ ∀ s ∈ seen, s.timestamp = none) ∨
  (∃ s t, s.timestamp = some t ∧ s ∈ seen ∧ acc = (some s, some |t - target|) ∧
    ∀ s2 ∈ seen, ∀ t2, s2.timestamp = some t2 → |t - target| ≤ |t2 - target|)

theorem goodAcc_step (target : ℤ) (seen : List Snapshot)
    (acc : Option Snapshot × Option ℤ) (x : Snapshot)
    (h : GoodAcc target seen acc) :
    GoodAcc target (seen ++ [x]) (scanStep target acc x) := by
  rcases hx : x.timestamp with _ | t
  · have hstep : scanStep target acc x = acc := by simp [scanStep, hx]
    rw [hstep]
    rcases h with ⟨hacc, hall⟩ | ⟨s, ts, hts, hmem, hacc, hmin⟩
    · left
      refine ⟨hacc, fun s hs => ?_⟩
      rcases List.mem_append.mp hs with h1 | h1
      · exact hall s h1
      · simp only [List.mem_singleton] at h1
        subst h1
        exact hx
    · right
      refine ⟨s, ts, hts, List.mem_append_left _ hmem, hacc, fun s2 hs2 t2 ht2 => ?_⟩
      rcases List.mem_append.mp hs2 with h1 | h1
      · exact hmin s2 h1 t2 ht2
      · simp only [List.mem_singleton] at h1
        subst h1
        rw [hx] at ht2
        cases ht2
  · rcases h with ⟨hacc, hall⟩ | ⟨s, ts, hts, hmem, hacc, hmin⟩
    · have hstep : scanStep target acc x = (some x, some |t - target|) := by
        rw [hacc]
        simp [scanStep, hx]
      rw [hstep]
      right
      refine ⟨x, t, hx, List.mem_append_right _ (by simp), rfl, fun s2 hs2 t2 ht2 => ?_⟩
      rcases List.mem_append.mp hs2 with h1 | h1
      · rw [hall s2 h1] at ht2
        cases ht2
      · simp only [List.mem_singleton] at h1
        subst h1
        rw [hx] at ht2
        injection ht2 with he
        subst he
        exact le_refl _
    · by_cases hlt : |t - target| < |ts - target|
      · have hstep : scanStep target acc x = (some x, some |t - target|) := by
          rw [hacc]
          simp [scanStep, hx, hlt]
        rw [hstep]
        right
        refine ⟨x, t, hx, List.mem_append_right _ (by simp), rfl, fun s2 hs2 t2 ht2 => ?_⟩
        rcases List.mem_append.mp hs2 with h1 | h1
        · exact le_trans (le_of_lt hlt) (hmin s2 h1 t2 ht2)
        · simp only [List.mem_singleton] at h1
          subst h1
          rw [hx] at ht2
          injection ht2 with he
          subst he
          exact le_refl _
      · have hstep : scanStep target acc x = acc := by
          rw [hacc]
          simp [scanStep, hx, hlt]
        rw [hstep]
        right
        refine ⟨s, ts, hts, List.mem_append_left _ hmem, hacc, fun s2 hs2 t2 ht2 => ?_⟩
        rcases List.mem_append.mp hs2 with h1 | h1
        · exact hmin s2 h1 t2 ht2
        · simp only [List.mem_singleton] at h1
          subst h1
          rw [hx] at ht2
          injection ht2 with he
          subst he
          exact le_of_not_lt hlt

theorem goodAcc_foldl (target : ℤ) (l : List Snapshot) :
    ∀ (seen : List Snapshot) (acc : Option Snapshot × Option ℤ),
      GoodAcc target seen acc →
      GoodAcc target (seen ++ l) (l.foldl (scanStep target) acc) := by
  induction l with
  | nil =>
    intro seen acc h
    simpa using h
  | cons x rest ih =>
    intro seen acc h
    have h2 := goodAcc_step target seen acc x h
    have h3 := ih (seen ++ [x]) _ h2
    simpa [List.append_assoc] using h3

theorem scanClosest_cases (target : ℤ) (l : List Snapshot) :
    (scanClosest target l = none ∧ ∀ s ∈ l, s.timestamp = none) ∨
    (∃ s t, s.timestamp = some t ∧ s ∈ l ∧ scanClosest target l = some s ∧
      ∀ s2 ∈ l, ∀ t2, s2.timestamp = some t2 → |t - target| ≤ |t2 - target|) := by
  have h0 : GoodAcc target [] ((none, none) : Option Snapshot × Option ℤ) :=
    Or.inl ⟨rfl, by simp⟩
  have h := goodAcc_foldl target l [] (none, none) h0
  simp only [List.nil_append] at h
  rcases h with ⟨hacc, hall⟩ | ⟨s, t, hts, hmem, hacc, hmin⟩
  · left
    exact ⟨by simp [scanClosest, hacc], hall⟩
  · right
    exact ⟨s, t, hts, hmem, by simp [scanClosest, hacc], hmin⟩

/-- C8 (amended): the previous-snapshot lookups linearly scan the history
    excluding the most recent entry and return the stored field of a
    scanned entry whose timestamp has minimum absolute difference to the
    target time 24 hours before now (among the entries that parse); they
    return none when the history has fewer than 2 entries in total — not
    fewer than 2 entries excluding the most recent — or when no scanned
    entry parses. -/
theorem C8_nearest_scan (now : ℤ) (h : List Snapshot) :
    (h.length < 2 → get_previous_total_nodes now h = none ∧
      get_previous_tor_percentage now h = none) ∧
    (2 ≤ h.length →
      ((∀ s ∈ h.dropLast, s.timestamp = none) →
        get_previous_total_nodes now h = none ∧
        get_previous_tor_percentage now h = none) ∧
      ((∃ s ∈ h.dropLast, s.timestamp ≠ none) →
        ∃ s ∈ h.dropLast, ∃ t, s.timestamp = some t ∧
          get_previous_total_nodes now h = some s.total_nodes ∧
          get_previous_tor_percentage now h = some s.tor_percentage ∧
          ∀ s2 ∈ h.dropLast, ∀ t2, s2.timestamp = some t2 →
            |t - (now - hours24)| ≤ |t2 - (now - hours24)|)) := by
  constructor
  · intro hlen
    constructor
    · simp [get_previous_total_nodes, hlen]
    · simp [get_previous_tor_percentage, hlen]
  · intro hlen
    have hnot : ¬ h.length < 2 := by omega
    rcases scanClosest_cases (now - hours24) h.dropLast with
      ⟨hnone, hall⟩ | ⟨s, t, hts, hmem, hsome, hmin⟩
    · constructor
      · intro _
        constructor
        · simp [get_previous_total_nodes, hnot, hnone]
        · simp [get_previous_tor_percentage, hnot, hnone]
      · rintro ⟨s, hs, hts⟩
        exact absurd (hall s hs) hts
    · constructor
      · intro hall
        rw [hall s hmem] at hts
        cases hts
      · intro _
        refine ⟨s, hmem, t, hts, ?_, ?_, hmin⟩
        · simp [get_previous_total_nodes, hnot, hsome]
        · simp [get_previous_tor_percentage, hnot, hsome]

/-- First snapshot of the two-entry witness history (parseable, 24 hours
    before the refresh time). -/
def wSnapA : Snapshot := ⟨some 0, 100, 50, 5, 5, 1/2⟩

/-- Second (most recent) snapshot of the two-entry witness history. -/
def wSnapB : Snapshot := ⟨some 86400, 200, 60, 6, 3, 3/10⟩

/-- C8 witness: on the concrete two-entry history the lookup returns the
    older entry's total (100) — obtained by applying the scan theorem with
    its hypotheses discharged concretely. -/
theorem C8_nearest_scan_witness :
    get_previous_total_nodes 86400 [wSnapA, wSnapB] = some 100 := by
  obtain ⟨s, hmem, t, hts, htot, hpct, hmin⟩ :=
    ((C8_nearest_scan 86400 [wSnapA, wSnapB]).2 (by simp)).2
      ⟨wSnapA, by simp, by simp [wSnapA]⟩
  have hs : s = wSnapA := by simpa using hmem
  rw [hs] at htot
  simpa [wSnapA] using htot

/-- C8 counterexample: a history with exactly 2 entries has only 1 entry
    excluding the most recent, yet the lookup returns that entry's value —
    it does not return none as the claim requires for histories with fewer
    than 2 entries excluding the most recent. -/
theorem C8_cex :
    ([wSnapA, wSnapB] : List Snapshot).dropLast.length < 2 ∧
    get_previous_total_nodes 86400 [wSnapA, wSnapB] ≠ none := by
  constructor
  · simp
  · intro hc
    have h100 : get_previous_total_nodes 86400 [wSnapA, wSnapB] = some 100 := by
      norm_num [get_previous_total_nodes, scanClosest, scanStep, hours24, wSnapA, wSnapB,
        List.dropLast]
    rw [h100] at hc
    cases hc

/-- One entry of `self.historical_data` as reloaded by
    `load_historical_data` from the JSON store: any JSON object is
    loadable, so besides an unparseable timestamp the `total_nodes` and
    `tor_percentage` keys themselves may be absent (`none`).  Only the
    fields read by the previous-snapshot lookups are modelled. -/
structure RawEntry where
  timestamp : Option ℤ
  total_nodes : Option ℤ
  tor_percentage : Option ℚ
  deriving DecidableEq

/-- The closest-snapshot scan step on raw store entries — the same loop
    body as `scanStep` (app.py lines 295-304 / 321-330): the subscript
    `snapshot['timestamp']` and the parse sit inside the `try`, so a
    missing or unparseable timestamp is skipped; the other keys are not
    touched by the loop. -/
def rawScanStep (target : ℤ) (acc : Option RawEntry × Option ℤ) (s : RawEntry) :
    Option RawEntry × Option ℤ :=
  match s.timestamp with
  | none => acc
  | some t =>
    let d := |t - target|
    match acc.2 with
    | none => (some s, some d)
    | some m => if d < m then (some s, some d) else acc

/-- The closest-snapshot scan over raw store entries. -/
def rawScanClosest (target : ℤ) (l : List RawEntry) : Option RawEntry :=
  (l.foldl (rawScanStep target) (none, none)).1

/-- src/app.py `get_previous_total_nodes` (lines 282-306) on raw store
    entries.  The final `closest_snapshot['total_nodes']` subscript is
    outside every `try`, so when the selected entry lacks the key the
    function raises an uncaught `KeyError`, modelled as `.error ()`. -/
def raw_get_previous_total_nodes (now : ℤ) (h : List RawEntry) :
    Except Unit (Option ℤ) :=
  if h.length < 2 then .ok none
  else
    match rawScanClosest (now - hours24) h.dropLast with
    | none => .ok none
    | some s =>
      match s.total_nodes with
      | none => .error ()
      | some v => .ok (some v)

/-- src/app.py `get_previous_tor_percentage` (lines 308-332) on raw store
    entries; the unprotected subscript at line 332 likewise raises when the
    selected entry lacks the `tor_percentage` key. -/
def raw_get_previous_tor_percentage (now : ℤ) (h : List RawEntry) :
    Except Unit (Option ℚ) :=
  if h.length < 2 then .ok none
  else
    match rawScanClosest (now - hours24) h.dropLast with
    | none => .ok none
    | some s =>
      match s.tor_percentage with
      | none => .error ()
      | some v => .ok (some v)

/-- Scan invariant on raw entries, mirroring `GoodAcc`. -/
def RawGoodAcc (target : ℤ) (seen : List RawEntry)
    (acc : Option RawEntry × Option ℤ) : Prop :=
  (acc = (none, none) ∧ ∀ s ∈ seen, s.timestamp = none) ∨
  (∃ s t, s.timestamp = some t ∧ s ∈ seen ∧ acc = (some s, some |t - target|) ∧
    ∀ s2 ∈ seen, ∀ t2, s2.timestamp = some t2 → |t - target| ≤ |t2 - target|)

theorem rawGoodAcc_step (target : ℤ) (seen : List RawEntry)
    (acc : Option RawEntry × Option ℤ) (x : RawEntry)
    (h : RawGoodAcc target seen acc) :
    RawGoodAcc target (seen ++ [x]) (rawScanStep target acc x) := by
  rcases hx : x.timestamp with _ | t
  · have hstep : rawScanStep target acc x = acc := by simp [rawScanStep, hx]
    rw [hstep]
    rcases h with ⟨hacc, hall⟩ | ⟨s, ts, hts, hmem, hacc, hmin⟩
    · left
      refine ⟨hacc, fun s hs => ?_⟩
      rcases List.mem_append.mp hs with h1 | h1
      · exact hall s h1
      · simp only [List.mem_singleton] at h1
        subst h1
        exact hx
    · right
      refine ⟨s, ts, hts, List.mem_append_left _ hmem, hacc, fun s2 hs2 t2 ht2 => ?_⟩
      rcases List.mem_append.mp hs2 with h1 | h1
      · exact hmin s2 h1 t2 ht2
      · simp only [List.mem_singleton] at h1
        subst h1
        rw [hx] at ht2
        cases ht2
  · rcases h with ⟨hacc, hall⟩ | ⟨s, ts, hts, hmem, hacc, hmin⟩
    · have hstep : rawScanStep target acc x = (some x, some |t - target|) := by
        rw [hacc]
        simp [rawScanStep, hx]
      rw [hstep]
      right
      refine ⟨x, t, hx, List.mem_append_right _ (by simp), rfl, fun s2 hs2 t2 ht2 => ?_⟩
      rcases List.mem_append.mp hs2 with h1 | h1
      · rw [hall s2 h1] at ht2
        cases ht2
      · simp only [List.mem_singleton] at h1
        subst h1
        rw [hx] at ht2
        injection ht2 with he
        subst he
        exact le_refl _
    · by_cases hlt : |t - target| < |ts - target|
      · have hstep : rawScanStep target acc x = (some x, some |t - target|) := by
          rw [hacc]
          simp [rawScanStep, hx, hlt]
        rw [hstep]
        right
        refine ⟨x, t, hx, List.mem_append_right _ (by simp), rfl, fun s2 hs2 t2 ht2 => ?_⟩
        rcases List.mem_append.mp hs2 with h1 | h1
        · exact le_trans (le_of_lt hlt) (hmin s2 h1 t2 ht2)
        · simp only [List.mem_singleton] at h1
          subst h1
          rw [hx] at ht2
          injection ht2 with he
          subst he
          exact le_refl _
      · have hstep : rawScanStep target acc x = acc := by
          rw [hacc]
          simp [rawScanStep, hx, hlt]
        rw [hstep]
        right
        refine ⟨s, ts, hts, List.mem_append_left _ hmem, hacc, fun s2 hs2 t2 ht2 => ?_⟩
        rcases List.mem_append.mp hs2 with h1 | h1
        · exact hmin s2 h1 t2 ht2
        · simp only [List.mem_singleton] at h1
          subst h1
          rw [hx] at ht2
          injection ht2 with he
          subst he
          exact le_of_not_lt hlt

theorem rawGoodAcc_foldl (target : ℤ) (l : List RawEntry) :
    ∀ (seen : List RawEntry) (acc : Option RawEntry × Option ℤ),
      RawGoodAcc target seen acc →
      RawGoodAcc target (seen ++ l) (l.foldl (rawScanStep target) acc) := by
  induction l with
  | nil =>
    intro seen acc h
    simpa using h
  | cons x rest ih =>
    intro seen acc h
    have h2 := rawGoodAcc_step target seen acc x h
    have h3 := ih (seen ++ [x]) _ h2
    simpa [List.append_assoc] using h3

theorem rawScanClosest_cases (target : ℤ) (l : List RawEntry) :
    (rawScanClosest target l = none ∧ ∀ s ∈ l, s.timestamp = none) ∨
    (∃ s t, s.timestamp = some t ∧ s ∈ l ∧ rawScanClosest target l = some s ∧
      ∀ s2 ∈ l, ∀ t2, s2.timestamp = some t2 → |t - target| ≤ |t2 - target|) := by
  have h0 : RawGoodAcc target [] ((none, none) : Option RawEntry × Option ℤ) :=
    Or.inl ⟨rfl, by simp⟩
  have h := rawGoodAcc_foldl target l [] (none, none) h0
  simp only [List.nil_append] at h
  rcases h with ⟨hacc, hall⟩ | ⟨s, t, hts, hmem, hacc, hmin⟩
  · left
    exact ⟨by simp [rawScanClosest, hacc], hall⟩
  · right
    exact ⟨s, t, hts, hmem, by simp [rawScanClosest, hacc], hmin⟩

theorem rawScanClosest_filter (target : ℤ) (l : List RawEntry) :
    rawScanClosest target l =
      rawScanClosest target (l.filter fun s => s.timestamp.isSome) := by
  suffices hfold : ∀ acc, l.foldl (rawScanStep target) acc =
      (l.filter fun s => s.timestamp.isSome).foldl (rawScanStep target) acc by
    unfold rawScanClosest
    rw [hfold]
  induction l with
  | nil => intro acc; rfl
  | cons x rest ih =>
    intro acc
    rcases hx : x.timestamp with _ | t
    · have hstep : rawScanStep target acc x = acc := by simp [rawScanStep, hx]
      have hp : x.timestamp.isSome = false := by rw [hx]; rfl
      simp only [List.foldl_cons, hstep, List.filter_cons, hp, Bool.false_eq_true, if_false]
      exact ih acc
    · have hp : x.timestamp.isSome = true := by rw [hx]; rfl
      simp only [List.filter_cons, hp, if_true, List.foldl_cons]
      exact ih _

/-- A store entry that is valid JSON — `{"timestamp": "..."}` with a
    parseable timestamp — but carries no `total_nodes` or `tor_percentage`
    key.  `load_historical_data` loads it without complaint. -/
def rawBare : RawEntry := ⟨some 0, none, none⟩

/-- A fully-populated store entry, the most recent one in the
    counterexample history. -/
def rawFull : RawEntry := ⟨some 86400, some 200, some 3⟩

/-- First entry of the two-entry witness history for C10: parseable
    timestamp 24 hours before the refresh, all keys present. -/
def rawA : RawEntry := ⟨some 0, some 100, some 5⟩

/-- Second (most recent) entry of the two-entry witness history for C10. -/
def rawB : RawEntry := ⟨some 86400, some 200, some 3⟩

/-- C10 counterexample: on the history `[rawBare, rawFull]` — loadable from
    valid JSON — the lone scanned entry parses and is selected, and the
    unprotected final subscripts at src/app.py lines 306 and 332 raise an
    uncaught KeyError (`.error ()`): the lookup does not "never raise
    regardless of entry contents", and no baseline is returned at all. -/
theorem C10_cex :
    rawBare.timestamp ≠ none ∧
    raw_get_previous_total_nodes 86400 [rawBare, rawFull] = .error () ∧
    raw_get_previous_tor_percentage 86400 [rawBare, rawFull] = .error () := by
  refine ⟨by simp [rawBare], ?_, ?_⟩
  · norm_num [raw_get_previous_total_nodes, rawScanClosest, rawScanStep, hours24,
      rawBare, rawFull, List.dropLast]
  · norm_num [raw_get_previous_tor_percentage, rawScanClosest, rawScanStep, hours24,
      rawBare, rawFull, List.dropLast]

/-- C10 (amended): the previous-snapshot lookups never raise from timestamp
    problems — entries whose timestamp key is missing or fails ISO-8601
    parsing are silently skipped, and filtering them out of the scanned
    list leaves the scan unchanged; when every scanned entry that parses
    also carries the looked-up key, the lookup returns normally; and when
    at least one entry before the last parses, the outcome is determined by
    some entry strictly before the most recent one (never the current
    snapshot itself): its stored value when the key is present, or an
    uncaught KeyError from the unprotected subscript (src/app.py 306/332)
    when it is absent. -/
theorem C10_raw_robustness (now target : ℤ) (h : List RawEntry) :
    rawScanClosest target h.dropLast =
      rawScanClosest target (h.dropLast.filter fun s => s.timestamp.isSome) ∧
    ((∀ s ∈ h.dropLast, s.timestamp.isSome →
        s.total_nodes.isSome ∧ s.tor_percentage.isSome) →
      (∃ r, raw_get_previous_total_nodes now h = .ok r) ∧
      (∃ r2, raw_get_previous_tor_percentage now h = .ok r2)) ∧
    ((∃ s ∈ h.dropLast, s.timestamp ≠ none) →
      ∃ s ∈ h.dropLast, s.timestamp ≠ none ∧
        raw_get_previous_total_nodes now h =
          (match s.total_nodes with
            | none => .error ()
            | some v => .ok (some v)) ∧
        raw_get_previous_tor_percentage now h =
          (match s.tor_percentage with
            | none => .error ()
            | some v => .ok (some v))) := by
  refine ⟨rawScanClosest_filter target h.dropLast, ?_, ?_⟩
  · intro hfields
    by_cases hlen : h.length < 2
    · exact ⟨⟨none, by simp [raw_get_previous_total_nodes, hlen]⟩,
        ⟨none, by simp [raw_get_previous_tor_percentage, hlen]⟩⟩
    · rcases rawScanClosest_cases (now - hours24) h.dropLast with
        ⟨hnone, hall⟩ | ⟨s, t, hts, hmem, hsome, hmin⟩
      · exact ⟨⟨none, by simp [raw_get_previous_total_nodes, hlen, hnone]⟩,
          ⟨none, by simp [raw_get_previous_tor_percentage, hlen, hnone]⟩⟩
      · obtain ⟨hf1, hf2⟩ := hfields s hmem (by simp [hts])
        obtain ⟨v, hv⟩ := Option.isSome_iff_exists.mp hf1
        obtain ⟨w, hw⟩ := Option.isSome_iff_exists.mp hf2
        exact ⟨⟨some v, by simp [raw_get_previous_total_nodes, hlen, hsome, hv]⟩,
          ⟨some w, by simp [raw_get_previous_tor_percentage, hlen, hsome, hw]⟩⟩
  · rintro ⟨s0, hs0, ht0⟩
    have hne : h.dropLast ≠ [] := List.ne_nil_of_mem hs0
    have hpos : 0 < h.dropLast.length := List.length_pos.mpr hne
    have hldl : h.dropLast.length = h.length - 1 := List.length_dropLast h
    have hnot : ¬ h.length < 2 := by omega
    rcases rawScanClosest_cases (now - hours24) h.dropLast with
      ⟨hnone, hall⟩ | ⟨s, t, hts, hmem, hsome, hmin⟩
    · exact absurd (hall s0 hs0) ht0
    · refine ⟨s, hmem, by simp [hts], ?_, ?_⟩
      · simp [raw_get_previous_total_nodes, hnot, hsome]
      · simp [raw_get_previous_tor_percentage, hnot, hsome]

/-- C10 witness: on the concrete two-entry history with a parseable,
    fully-keyed older entry, both lookups return that entry's values
    without raising — obtained by applying the robustness theorem with its
    hypotheses discharged concretely. -/
theorem C10_raw_robustness_witness :
    raw_get_previous_total_nodes 86400 [rawA, rawB] = .ok (some 100) ∧
    raw_get_previous_tor_percentage 86400 [rawA, rawB] = .ok (some 5) := by
  obtain ⟨s, hmem, hts, htot, hpct⟩ :=
    (C10_raw_robustness 86400 0 [rawA, rawB]).2.2 ⟨rawA, by simp, by simp [rawA]⟩
  have hs : s = rawA := by simpa using hmem
  rw [hs] at htot hpct
  exact ⟨by simpa [rawA] using htot, by simpa [rawA] using hpct⟩
